import Mathlib

/-!
Verification of the two converters in this repository against their
specification:

* `utils/convert_nuscenes_to_json.py` — converts a directory of nuScenes-style
  extrinsics/intrinsics files into a `transforms.json` document;
* `utils/convert_cameras_json.py` — converts a flat `cameras.json` list into
  the same document format.

The Python code is shallowly embedded below.  Conventions of the embedding:

* Floating-point values are modelled by exact rationals `ℚ`; "within
  floating-point tolerance" statements become exact identities.
* A parsed numeric file (`np.loadtxt` result) is a rectangular list of rows
  `List (List ℚ)`.
* `np.linalg.inv` is the exact 4×4 matrix inverse; it raises `LinAlgError`
  exactly on singular matrices, modelled by a determinant test.
* Python exceptions (`ValueError`, `NotImplementedError`, `AssertionError`,
  the `TypeError` from subscripting `None`) and the early `return False` are
  modelled by an `Except ConvError` result, propagated by `exceptBind`.  The
  output document is written (`json.dump`) only after the whole frame loop
  succeeds, so an `.error` result means no output document is produced.
* A Python `dict` is an association list (unique keys); `sorted(...)` on
  strings is sorting by the lexicographic code-point order, and
  `os.listdir` order is the order of the input list.
* Logging is not modelled; warnings/errors appear as the `Option`/`Except`
  outcomes that accompany them in the code.
-/

/-! ## Python string primitives (code-point semantics, kernel-reducible) -/

/-- Lexicographic comparison of character lists by code point; this is how
Python compares strings. -/
def charListLe : List Char → List Char → Bool
  | [], _ => true
  | _ :: _, [] => false
  | a :: as, b :: bs => if a < b then true else if a = b then charListLe as bs else false

/-- Python string `<=`. -/
def strLe (a b : String) : Bool := charListLe a.data b.data

/-- The ordering relation used to model Python `sorted` on strings. -/
def strLeR (a b : String) : Prop := strLe a b = true

instance : DecidableRel strLeR := fun a b => inferInstanceAs (Decidable (strLe a b = true))

/-- Splitting a character list at every occurrence of `sep`; Python
`str.split(sep)` semantics for a one-character separator (`"".split` gives
`[""]`, adjacent separators give empty chunks). -/
def splitOnChar (sep : Char) : List Char → List (List Char)
  | [] => [[]]
  | c :: rest =>
    let r := splitOnChar sep rest
    if c = sep then [] :: r
    else
      match r with
      | [] => [[c]]
      | h :: t => (c :: h) :: t

/-- Python `key.split('_')` as used throughout `convert_nuscenes_to_json.py`. -/
def pySplit (s : String) : List String :=
  (splitOnChar '_' s.data).map (fun l => String.mk l)

/-- Python `str.endswith(suffix)`. -/
def pyEndsWith (s suf : String) : Bool := suf.data.isSuffixOf s.data

/-- Python `s[:-n]` for `n ≤ len(s)` (used as `filename[:-4]` to strip
`".txt"`, line 62). -/
def pyDropRight (s : String) (n : Nat) : String :=
  String.mk (s.data.take (s.data.length - n))

/-- Model of Python `sorted(...)` on strings (`sorted(extrinsics.keys())`,
`sorted(camera_ids)`): sort by lexicographic code-point order.  Sorting a
list of strings under a linear order has a unique sorted result, so any
correct sort models `sorted`. -/
def sortKeys (ks : List String) : List String := List.insertionSort strLeR ks

/-! ## 4×4 matrices over ℚ -/

/-- The matrix type of a parsed 4×4 extrinsics file. -/
abbrev M4 := Matrix (Fin 4) (Fin 4) ℚ

instance : DecidableEq M4 := inferInstanceAs (DecidableEq (Fin 4 → Fin 4 → ℚ))

/-- Executable cofactor expansion of the 4×4 determinant along row 0
(proved equal to `Matrix.det` below); used to model the exact-singularity
test of `np.linalg.inv`. -/
def det4 (A : M4) : ℚ :=
  A 0 0 * (A 1 1 * A 2 2 * A 3 3 - A 1 1 * A 2 3 * A 3 2 - A 1 2 * A 2 1 * A 3 3
    + A 1 2 * A 2 3 * A 3 1 + A 1 3 * A 2 1 * A 3 2 - A 1 3 * A 2 2 * A 3 1)
  - A 0 1 * (A 1 0 * A 2 2 * A 3 3 - A 1 0 * A 2 3 * A 3 2 - A 1 2 * A 2 0 * A 3 3
    + A 1 2 * A 2 3 * A 3 0 + A 1 3 * A 2 0 * A 3 2 - A 1 3 * A 2 2 * A 3 0)
  + A 0 2 * (A 1 0 * A 2 1 * A 3 3 - A 1 0 * A 2 3 * A 3 1 - A 1 1 * A 2 0 * A 3 3
    + A 1 1 * A 2 3 * A 3 0 + A 1 3 * A 2 0 * A 3 1 - A 1 3 * A 2 1 * A 3 0)
  - A 0 3 * (A 1 0 * A 2 1 * A 3 2 - A 1 0 * A 2 2 * A 3 1 - A 1 1 * A 2 0 * A 3 2
    + A 1 1 * A 2 2 * A 3 0 + A 1 2 * A 2 0 * A 3 1 - A 1 2 * A 2 1 * A 3 0)

/-- Exact inverse of a 4×4 rational matrix, the semantics of
`np.linalg.inv` on an invertible input (line 193). -/
def matInv (A : M4) : M4 := A.det⁻¹ • A.adjugate

/-- Identity matrix written as an explicit kernel-reducible function (used
for concrete test inputs). -/
def mId : M4 := fun i j => if i = j then 1 else 0

/-- All-zero 4×4 matrix as an explicit function (concrete test input). -/
def mZero : M4 := fun _ _ => 0

/-! ## Data model of the nuScenes converter -/

/-- An `IntrinsicsRecord`: `fx, fy, cx, cy` parsed from a `{camera}.txt`
file plus the caller-supplied width and height (lines 84-87). -/
structure Intrinsics where
  fx : ℚ
  fy : ℚ
  cx : ℚ
  cy : ℚ
  width : Nat
  height : Nat
deriving DecidableEq

/-- A `FrameRecord` of the output document: `file_path`,
`transform_matrix`, and (in multi-camera mode) the embedded per-frame
intrinsics `fl_x, fl_y, cx, cy, w, h` (lines 206-224). -/
structure Frame where
  filePath : String
  transformMatrix : M4
  intr : Option Intrinsics
deriving DecidableEq

/-- The fatal outcomes of a conversion run.  Each constructor corresponds
to a concrete exception or early `return False` in the Python code. -/
inductive ConvError where
  /-- `ValueError` raised at line 66 for a non-4×4 extrinsics file; carries
  the file name and the shape found. -/
  | invalidShape (filename : String) (shape : Nat × Nat)
  /-- Empty extrinsics collection: `return False` at line 137. -/
  | noExtrinsics
  /-- `NotImplementedError` raised at line 169 in single-camera mode. -/
  | notImplemented
  /-- `ValueError` raised at line 89 for an intrinsics file with fewer than
  four values; carries the camera id and the count found. -/
  | insufficientIntrinsics (cameraId : String) (count : Nat)
  /-- `KeyError` from `extrinsics[camera_name]` (line 188; unreachable,
  since the keys iterated are the dictionary's own keys). -/
  | keyError (key : String)
  /-- `LinAlgError` from `np.linalg.inv` on a singular reference (line 193). -/
  | singularReference
  /-- `AssertionError` at line 215 for a key that does not split into
  exactly two parts. -/
  | badKeyFormat (key : String)
  /-- `AssertionError` at line 217 for a camera id absent from the loaded
  intrinsics dictionary (unreachable by construction). -/
  | camNotLoaded (cameraId : String)
  /-- `TypeError` at line 219: subscripting the `None` stored for a camera
  whose intrinsics file was missing. -/
  | intrinsicsNone (cameraId : String)
deriving DecidableEq

/-- Exception propagation: run the continuation only on a success.  This is
how an uncaught Python exception aborts the surrounding computation. -/
def exceptBind {ε α β : Type} (x : Except ε α) (f : α → Except ε β) : Except ε β :=
  match x with
  | .error e => .error e
  | .ok v => f v

/-- True exactly on an `ok` outcome; an `error` outcome models a run that
aborts before `json.dump`, so no output document is written. -/
def exceptOk {ε α : Type} : Except ε α → Bool
  | .ok _ => true
  | .error _ => false

/-- The `numpy` shape of a rectangular parsed file: (rows, columns). -/
def shapeOf (rows : List (List ℚ)) : Nat × Nat := (rows.length, (rows.headD []).length)

/-- The `matrix.shape == (4, 4)` test of line 60. -/
def isShape4x4 (rows : List (List ℚ)) : Bool :=
  rows.length = 4 && rows.all (fun r => r.length = 4)

/-- A rectangular 4×4 row list as a matrix. -/
def toMatrix4 (rows : List (List ℚ)) : M4 :=
  fun i j => ((rows.getD (i : Nat) []).getD (j : Nat) 0)

/-- Loop body of `load_extrinsics_from_directory` (lines 55-66): parse each
file in listing order; a 4×4 file is stored under its base name (extension
stripped), any other shape raises `ValueError` naming the file and shape. -/
def loadFiles : List (String × List (List ℚ)) → Except ConvError (List (String × M4))
  | [] => .ok []
  | (name, rows) :: rest =>
    if isShape4x4 rows then
      exceptBind (loadFiles rest) (fun tail =>
        .ok ((pyDropRight name 4, toMatrix4 rows) :: tail))
    else .error (.invalidShape name (shapeOf rows))

/-- `load_extrinsics_from_directory` (lines 39-69): the input is the
directory listing, filename paired with parsed contents; only `.txt` files
are considered (line 46). -/
def load_extrinsics_from_directory (files : List (String × List (List ℚ))) :
    Except ConvError (List (String × M4)) :=
  loadFiles (files.filter (fun f => pyEndsWith f.1 ".txt"))

/-- `load_intrinsics` (lines 71-91).  `intrSrc` is the intrinsics
directory: camera id to parsed file contents, `none` when the file
`{camera_id}.txt` does not exist.  A missing file logs an error and returns
`None`; fewer than four values raises `ValueError`; otherwise the first
four values become `fx, fy, cx, cy`. -/
def load_intrinsics (intrSrc : String → Option (List ℚ)) (cameraId : String)
    (width height : Nat) : Except ConvError (Option Intrinsics) :=
  match intrSrc cameraId with
  | none => .ok none
  | some data =>
    if 4 ≤ data.length then
      .ok (some { fx := data.getD 0 0, fy := data.getD 1 0,
                  cx := data.getD 2 0, cy := data.getD 3 0,
                  width := width, height := height })
    else .error (.insufficientIntrinsics cameraId data.length)

/-- Camera-id extraction used for discovery (lines 148-150): split the key
on `'_'` and take the second part, but only when the split has exactly two
parts (other keys are skipped at discovery). -/
def cameraIdOf (key : String) : Option String :=
  if (pySplit key).length = 2 then some ((pySplit key).getD 1 "") else none

/-- The sorted set of detected camera ids (lines 145-155): collect the
camera components of well-formed keys, de-duplicate (Python `set`), and
sort. -/
def discoveredCams (keys : List String) : List String :=
  sortKeys (keys.filterMap cameraIdOf).dedup

/-- Loading loop of lines 155-158: for each detected camera in sorted
order, call `load_intrinsics` and store the result (possibly `None`) in the
`all_intrinsics` dictionary. -/
def loadAllIntrinsics (intrSrc : String → Option (List ℚ)) (width height : Nat) :
    List String → Except ConvError (List (String × Option Intrinsics))
  | [] => .ok []
  | c :: rest =>
    exceptBind (load_intrinsics intrSrc c width height) (fun v =>
      exceptBind (loadAllIntrinsics intrSrc width height rest) (fun tail =>
        .ok ((c, v) :: tail)))

/-- Reference-candidate selection (line 175): the sorted keys that end
with the two characters `"_0"`. -/
def firstFrameCandidates (keys : List String) : List String :=
  (sortKeys keys).filter (fun k => pyEndsWith k "_0")

/-- The reference key (`first_camera_name`, line 177): head of the
candidate list, if any. -/
def referenceKey (extr : List (String × M4)) : Option String :=
  (firstFrameCandidates (extr.map Prod.fst)).head?

/-- The reference pose `camera_front_start` (lines 172-184): the extrinsic
matrix stored under the reference key; `none` means alignment is skipped
(with a logged warning). -/
def referenceMatrix (extr : List (String × M4)) : Option M4 :=
  (referenceKey extr).bind (fun k => extr.lookup k)

/-- Image path construction (lines 199-203): Python truthiness of
`images_dir` means `None` and the empty string both fall back to
`"images"`. -/
def imagePathFor (imagesDir : Option String) (key ext : String) : String :=
  match imagesDir with
  | some d => if d = "" then "images/" ++ key ++ ext else d ++ "/" ++ key ++ ext
  | none => "images/" ++ key ++ ext

/-- Alignment step of lines 190-193: when a reference pose exists, the
emitted pose is `np.linalg.inv(reference) @ raw`, with `np.linalg.inv`
raising on a singular reference; otherwise the raw pose passes through. -/
def alignPose (ref : Option M4) (m : M4) : Except ConvError M4 :=
  match ref with
  | some r => if det4 r = 0 then .error .singularReference else .ok (matInv r * m)
  | none => .ok m

/-- Frame assembly tail (lines 205-224), after the transform has been
computed: build the frame record and, in multi-camera mode, assert the key
splits in two, look the camera up in `all_intrinsics`, and embed the
intrinsics; a `None` entry makes `cam_intrinsics['fx']` raise `TypeError`. -/
def finishFrame (ai : List (String × Option Intrinsics)) (imagesDir : Option String)
    (ext key : String) (tm : M4) : Except ConvError Frame :=
  if (pySplit key).length = 2 then
    match ai.lookup ((pySplit key).getD 1 "") with
    | none => .error (.camNotLoaded ((pySplit key).getD 1 ""))
    | some none => .error (.intrinsicsNone ((pySplit key).getD 1 ""))
    | some (some ci) =>
      .ok { filePath := imagePathFor imagesDir key ext,
            transformMatrix := tm, intr := some ci }
  else .error (.badKeyFormat key)

/-- One iteration of the frame loop (lines 187-226) in multi-camera mode:
fetch the raw matrix, apply the alignment, then assemble the frame. -/
def buildFrame (ai : List (String × Option Intrinsics)) (imagesDir : Option String)
    (ext : String) (ref : Option M4) (extr : List (String × M4)) (key : String) :
    Except ConvError Frame :=
  match extr.lookup key with
  | none => .error (.keyError key)
  | some m => exceptBind (alignPose ref m) (finishFrame ai imagesDir ext key)

/-- The frame loop over a key list (in the code: `sorted(extrinsics.keys())`). -/
def buildFrames (ai : List (String × Option Intrinsics)) (imagesDir : Option String)
    (ext : String) (ref : Option M4) (extr : List (String × M4)) :
    List String → Except ConvError (List Frame)
  | [] => .ok []
  | k :: ks =>
    exceptBind (buildFrame ai imagesDir ext ref extr k) (fun f =>
      exceptBind (buildFrames ai imagesDir ext ref extr ks) (fun rest =>
        .ok (f :: rest)))

/-- `convert_nuscenes_to_transforms` (lines 111-244) with the extrinsics
dictionary already loaded: empty extrinsics fail first (line 135);
single-camera mode raises `NotImplementedError` (line 169) before any
intrinsics are read; in multi-camera mode the per-camera intrinsics are
loaded, the reference pose selected, and the frames assembled in ascending
key order.  The `.ok` value is the document's `frames` array. -/
def convert_nuscenes_to_transforms (extr : List (String × M4))
    (intrSrc : String → Option (List ℚ)) (imagesDir : Option String) (imageExt : String)
    (width height : Nat) (multiCamera : Bool) : Except ConvError (List Frame) :=
  if extr.isEmpty then .error .noExtrinsics
  else if multiCamera then
    exceptBind (loadAllIntrinsics intrSrc width height (discoveredCams (extr.map Prod.fst)))
      (fun ai =>
        buildFrames ai imagesDir imageExt (referenceMatrix extr) extr
          (sortKeys (extr.map Prod.fst)))
  else .error .notImplemented

/-- The whole run from the directory listing: load the extrinsics, then
convert.  The `ValueError` of the loader propagates, so a parse failure
aborts before any output is written. -/
def runConversion (files : List (String × List (List ℚ)))
    (intrSrc : String → Option (List ℚ)) (imagesDir : Option String) (imageExt : String)
    (width height : Nat) (multiCamera : Bool) : Except ConvError (List Frame) :=
  exceptBind (load_extrinsics_from_directory files) (fun extr =>
    convert_nuscenes_to_transforms extr intrSrc imagesDir imageExt width height multiCamera)

/-! ## Spec-side description of the reference selection

The specification describes candidate selection by the camera component
(the second of exactly two parts after splitting the key on the
separator), not by a suffix test; these definitions follow the spec's
words so the two can be compared. -/

/-- Whether the key's camera component (spec §3 `CameraKey`: the second of
exactly two parts of the split) equals `"0"`. -/
def hasCameraComponent0 (k : String) : Bool :=
  match cameraIdOf k with
  | some c => c == "0"
  | none => false

/-- Reference key as the spec words it: lexicographically smallest key
whose camera component is `"0"`. -/
def specReferenceKey (extr : List (String × M4)) : Option String :=
  ((sortKeys (extr.map Prod.fst)).filter hasCameraComponent0).head?

/-- Reference matrix as the spec words it. -/
def specReferenceMatrix (extr : List (String × M4)) : Option M4 :=
  (specReferenceKey extr).bind (fun k => extr.lookup k)

/-! ## Data model of the flat cameras.json converter -/

/-- One record of `cameras.json` as read by `convert_cameras_json.py`:
intrinsics, image name, a 3×3 rotation and a 3-vector position. -/
structure CameraRecord where
  imgName : String
  fx : ℚ
  fy : ℚ
  width : Nat
  height : Nat
  rotation : Matrix (Fin 3) (Fin 3) ℚ
  position : Fin 3 → ℚ

/-- A frame of the flat converter's output (no per-frame intrinsics). -/
structure CamFrame where
  filePath : String
  transformMatrix : M4

/-- The single-camera output document shape: global intrinsics plus
frames. -/
structure TransformsDoc where
  flx : ℚ
  fly : ℚ
  w : Nat
  h : Nat
  frames : List CamFrame

/-- Lines 45-47 of `convert_cameras_json.py`: start from `np.eye(4)`,
overwrite the top-left 3×3 block with the rotation and the top-right
column with the position; the bottom row keeps the identity's `0 0 0 1`. -/
def toTransformMatrix (rotation : Matrix (Fin 3) (Fin 3) ℚ) (position : Fin 3 → ℚ) : M4 :=
  fun i j =>
    if hi : (i : Nat) < 3 then
      if hj : (j : Nat) < 3 then rotation ⟨i, hi⟩ ⟨j, hj⟩
      else position ⟨i, hi⟩
    else if (j : Nat) = 3 then 1 else 0

/-- `convert_cameras_to_transforms` (lines 11-63): empty input raises
`ValueError`; intrinsics come from the first record; each record becomes a
frame with path `images/{img_name}.jpg` and the assembled 4×4 matrix. -/
def convert_cameras_to_transforms (cams : List CameraRecord) :
    Except String TransformsDoc :=
  match cams with
  | [] => .error "Empty cameras data"
  | first :: _ =>
    .ok { flx := first.fx, fly := first.fy, w := first.width, h := first.height,
          frames := cams.map (fun cam =>
            { filePath := "images/" ++ cam.imgName ++ ".jpg",
              transformMatrix := toTransformMatrix cam.rotation cam.position }) }

/-! ## Concrete inputs for witnesses and counterexamples -/

/-- Intrinsics source with a single camera `"0"`. -/
def intrSrc0 : String → Option (List ℚ) :=
  fun c => if c = "0" then some [500, 500, 320, 240, 0, 0] else none

/-- Intrinsics source with a single camera `"1"`. -/
def intrSrc1 : String → Option (List ℚ) :=
  fun c => if c = "1" then some [500, 500, 320, 240, 0, 0] else none

/-- Intrinsics source with no files at all. -/
def intrSrcNone : String → Option (List ℚ) := fun _ => none

/-- The intrinsics record produced from `[500, 500, 320, 240, 0, 0]` at
the default 1600×900 resolution. -/
def intr500 : Intrinsics :=
  { fx := 500, fy := 500, cx := 320, cy := 240, width := 1600, height := 900 }

/-- A one-key extrinsics dictionary whose key names the front camera. -/
def exFront : List (String × M4) := [("000_0", mId)]

/-- A one-key extrinsics dictionary for camera `"1"` (no front camera). -/
def exSide : List (String × M4) := [("000_1", mId)]

/-- An extrinsics dictionary whose smallest key ends in `"_0"` but has
three components, together with a genuine front-camera key. -/
def exMixed : List (String × M4) := [("000_1_0", mId), ("001_0", mZero)]

/-- A one-key extrinsics dictionary with a three-component key ending in
`"_0"`. -/
def exThreePart : List (String × M4) := [("000_1_0", mId)]

/-- Directory listing with a single malformed (3×3) extrinsics file. -/
def filesBad : List (String × List (List ℚ)) :=
  [("bad.txt", [[1, 0, 0], [0, 1, 0], [0, 0, 1]])]

/-- A one-record cameras.json input. -/
def camsEx : List CameraRecord :=
  [{ imgName := "img0", fx := 500, fy := 500, width := 1600, height := 900,
     rotation := fun i j => if i = j then 1 else 0,
     position := fun _ => 7 }]

/-! ## Order properties of the string comparison -/

theorem charListLe_total (l1 l2 : List Char) :
    charListLe l1 l2 = true ∨ charListLe l2 l1 = true := by
  induction l1 generalizing l2 with
  | nil => left; rfl
  | cons a as ih =>
    cases l2 with
    | nil => right; rfl
    | cons b bs =>
      rcases lt_trichotomy a b with h | h | h
      · left; simp [charListLe, h]
      · subst h
        rcases ih bs with h2 | h2
        · left; simp [charListLe, h2]
        · right; simp [charListLe, h2]
      · right; simp [charListLe, h, not_lt.mpr (le_of_lt h), ne_of_gt h]

theorem charListLe_trans {l1 l2 l3 : List Char}
    (h12 : charListLe l1 l2 = true) (h23 : charListLe l2 l3 = true) :
    charListLe l1 l3 = true := by
  induction l1 generalizing l2 l3 with
  | nil => rfl
  | cons a as ih =>
    cases l2 with
    | nil => simp [charListLe] at h12
    | cons b bs =>
      cases l3 with
      | nil => simp [charListLe] at h23
      | cons c cs =>
        simp only [charListLe] at h12 h23 ⊢
        rcases lt_trichotomy a b with hab | hab | hab
        · rcases lt_trichotomy b c with hbc | hbc | hbc
          · simp [lt_trans hab hbc]
          · subst hbc; simp [hab]
          · simp [hbc, not_lt.mpr (le_of_lt hbc), ne_of_gt hbc] at h23
        · subst hab
          rcases lt_trichotomy a c with hac | hac | hac
          · simp [hac]
          · subst hac
            simp only [lt_irrefl, if_false, if_pos rfl] at h12 h23 ⊢
            exact ih h12 h23
          · simp [hac, not_lt.mpr (le_of_lt hac), ne_of_gt hac] at h23
        · simp [hab, not_lt.mpr (le_of_lt hab), ne_of_gt hab] at h12

theorem charListLe_refl (l : List Char) : charListLe l l = true := by
  induction l with
  | nil => rfl
  | cons a as ih => simp [charListLe, ih]

theorem strLeR_refl (a : String) : strLeR a a := charListLe_refl a.data

instance : IsTotal String strLeR := ⟨fun a b => charListLe_total a.data b.data⟩

instance : IsTrans String strLeR := ⟨fun _ _ _ h1 h2 => charListLe_trans h1 h2⟩

theorem mem_sortKeys {x : String} {l : List String} : x ∈ sortKeys l ↔ x ∈ l :=
  List.mem_insertionSort strLeR

theorem sortKeys_perm (l : List String) : List.Perm (sortKeys l) l :=
  List.perm_insertionSort strLeR l

theorem sortKeys_sorted (l : List String) : List.Sorted strLeR (sortKeys l) :=
  List.sorted_insertionSort strLeR l

/-! ## Determinant and inverse -/

theorem det4_eq_det (A : M4) : det4 A = A.det := by
  rw [Matrix.det_succ_row_zero]
  simp [Fin.sum_univ_succ, Matrix.det_fin_three, Matrix.submatrix_apply, det4,
    show (Fin.succ 0 : Fin 4) = 1 from rfl,
    show (Fin.succ 1 : Fin 4) = 2 from rfl,
    show (Fin.succ 2 : Fin 4) = 3 from rfl,
    show (Fin.succ 0 : Fin 3) = 1 from rfl,
    show (Fin.succ 1 : Fin 3) = 2 from rfl,
    show ∀ b : Fin 3, (0 : Fin 4).succAbove b = b.succ from fun b => Fin.zero_succAbove b,
    show ((1 : Fin 4).succAbove 0 : Fin 4) = 0 from rfl,
    show ((1 : Fin 4).succAbove 1 : Fin 4) = 2 from rfl,
    show ((1 : Fin 4).succAbove 2 : Fin 4) = 3 from rfl,
    show ((2 : Fin 4).succAbove 0 : Fin 4) = 0 from rfl,
    show ((2 : Fin 4).succAbove 1 : Fin 4) = 1 from rfl,
    show ((2 : Fin 4).succAbove 2 : Fin 4) = 3 from rfl,
    show ((3 : Fin 4).succAbove 0 : Fin 4) = 0 from rfl,
    show ((3 : Fin 4).succAbove 1 : Fin 4) = 1 from rfl,
    show ((3 : Fin 4).succAbove 2 : Fin 4) = 2 from rfl,
    show (Fin.castSucc 2 : Fin 4) = 2 from rfl]
  ring

theorem matInv_eq_inv (A : M4) : matInv A = A⁻¹ := by
  rw [Matrix.inv_def, Ring.inverse_eq_inv']
  rfl

theorem matInv_mul_self (A : M4) (h : A.det ≠ 0) : matInv A * A = 1 := by
  unfold matInv
  rw [Matrix.smul_mul, Matrix.adjugate_mul, smul_smul, inv_mul_cancel₀ h, one_smul]

theorem mId_eq_one : mId = (1 : M4) := by
  funext i j
  simp [mId, Matrix.one_apply, eq_comm]

/-! ## Structural lemmas about the conversion pipeline -/

theorem exceptBind_error {ε α β : Type} (e : ε) (f : α → Except ε β) :
    exceptBind (.error e) f = .error e := rfl

theorem exceptBind_ok {ε α β : Type} (v : α) (f : α → Except ε β) :
    exceptBind (.ok v) f = f v := rfl

theorem exceptBind_ok_elim {ε α β : Type} {x : Except ε α} {f : α → Except ε β}
    {b : β} (h : exceptBind x f = .ok b) : ∃ v, x = .ok v ∧ f v = .ok b := by
  cases x with
  | error e => rw [exceptBind_error] at h; cases h
  | ok v => exact ⟨v, rfl, h⟩

theorem lookup_mem_isSome {extr : List (String × M4)} {k : String}
    (h : k ∈ extr.map Prod.fst) : ∃ m, extr.lookup k = some m := by
  induction extr with
  | nil => simp at h
  | cons p t ih =>
    rcases p with ⟨a, b⟩
    by_cases hk : k = a
    · subst hk; exact ⟨b, by simp [List.lookup]⟩
    · simp only [List.map_cons, List.mem_cons] at h
      rcases h with h | h
      · exact absurd h hk
      · rcases ih h with ⟨m, hm⟩
        refine ⟨m, ?_⟩
        have hb : (k == a) = false := by simp [hk]
        simp [List.lookup, hb, hm]

theorem loadAllIntrinsics_lookup {intrSrc : String → Option (List ℚ)}
    {cams : List String} {w h : Nat} {ai : List (String × Option Intrinsics)}
    (hok : loadAllIntrinsics intrSrc w h cams = .ok ai) {c : String} (hc : c ∈ cams) :
    ∃ v, load_intrinsics intrSrc c w h = .ok v ∧ ai.lookup c = some v := by
  induction cams generalizing ai with
  | nil => simp at hc
  | cons a t ih =>
    unfold loadAllIntrinsics at hok
    rcases exceptBind_ok_elim hok with ⟨v, hl, hok2⟩
    rcases exceptBind_ok_elim hok2 with ⟨tail, ht, hok3⟩
    injection hok3 with hok3
    subst hok3
    by_cases hca : c = a
    · subst hca; exact ⟨v, hl, by simp [List.lookup]⟩
    · rcases List.mem_cons.mp hc with hc2 | hc2
      · exact absurd hc2 hca
      · rcases ih ht hc2 with ⟨v2, hv2, hlk⟩
        refine ⟨v2, hv2, ?_⟩
        have hb : (c == a) = false := by simp [hca]
        simp [List.lookup, hb, hlk]

theorem finishFrame_ok {ai : List (String × Option Intrinsics)}
    {imagesDir : Option String} {ext key : String} {tm : M4} {f : Frame}
    (h : finishFrame ai imagesDir ext key tm = .ok f) :
    f.filePath = imagePathFor imagesDir key ext ∧ f.transformMatrix = tm := by
  unfold finishFrame at h
  by_cases h2 : (pySplit key).length = 2
  · rw [if_pos h2] at h
    cases hl : ai.lookup ((pySplit key).getD 1 "") with
    | none => rw [hl] at h; cases h
    | some v =>
      cases v with
      | none => rw [hl] at h; cases h
      | some ci =>
        rw [hl] at h
        injection h with h
        subst h
        exact ⟨rfl, rfl⟩
  · rw [if_neg h2] at h; cases h

theorem finishFrame_intrNone {ai : List (String × Option Intrinsics)}
    {imagesDir : Option String} {ext key : String} {tm : M4} {cam : String}
    (hcam : cameraIdOf key = some cam) (hai : ai.lookup cam = some none) :
    finishFrame ai imagesDir ext key tm = .error (.intrinsicsNone cam) := by
  unfold cameraIdOf at hcam
  by_cases h2 : (pySplit key).length = 2
  · rw [if_pos h2] at hcam
    injection hcam with hcam
    unfold finishFrame
    rw [if_pos h2, hcam, hai]
  · rw [if_neg h2] at hcam; cases hcam

theorem alignPose_none (m : M4) : alignPose none m = .ok m := rfl

theorem alignPose_some (r m : M4) :
    alignPose (some r) m
      = if det4 r = 0 then .error .singularReference else .ok (matInv r * m) := rfl

theorem alignPose_ok_elim {ref : Option M4} {m tm : M4}
    (h : alignPose ref m = .ok tm) :
    (ref = none ∧ tm = m) ∨ ∃ r, ref = some r ∧ det4 r ≠ 0 ∧ tm = matInv r * m := by
  cases ref with
  | none =>
    rw [alignPose_none] at h
    injection h with h
    exact Or.inl ⟨rfl, h.symm⟩
  | some r =>
    rw [alignPose_some] at h
    by_cases hd : det4 r = 0
    · rw [if_pos hd] at h; cases h
    · rw [if_neg hd] at h
      injection h with h
      exact Or.inr ⟨r, rfl, hd, h.symm⟩

theorem buildFrame_eq_some {ai : List (String × Option Intrinsics)}
    {imagesDir : Option String} {ext : String} {ref : Option M4}
    {extr : List (String × M4)} {key : String} {m : M4}
    (hl : extr.lookup key = some m) :
    buildFrame ai imagesDir ext ref extr key
      = exceptBind (alignPose ref m) (finishFrame ai imagesDir ext key) := by
  unfold buildFrame
  rw [hl]

theorem buildFrame_ok_elim {ai : List (String × Option Intrinsics)}
    {imagesDir : Option String} {ext : String} {ref : Option M4}
    {extr : List (String × M4)} {key : String} {f : Frame}
    (h : buildFrame ai imagesDir ext ref extr key = .ok f) :
    ∃ m tm, extr.lookup key = some m ∧ alignPose ref m = .ok tm ∧
      f.filePath = imagePathFor imagesDir key ext ∧ f.transformMatrix = tm := by
  unfold buildFrame at h
  cases hl : extr.lookup key with
  | none => rw [hl] at h; cases h
  | some m =>
    rw [hl] at h
    rcases exceptBind_ok_elim h with ⟨tm, ha, hf⟩
    rcases finishFrame_ok hf with ⟨h1, h2⟩
    exact ⟨m, tm, rfl, ha, h1, h2⟩

theorem buildFrame_ok_path {ai : List (String × Option Intrinsics)}
    {imagesDir : Option String} {ext : String} {ref : Option M4}
    {extr : List (String × M4)} {key : String} {f : Frame}
    (h : buildFrame ai imagesDir ext ref extr key = .ok f) :
    f.filePath = imagePathFor imagesDir key ext := by
  rcases buildFrame_ok_elim h with ⟨m, tm, _, _, h1, _⟩
  exact h1

theorem buildFrame_intrNone {ai : List (String × Option Intrinsics)}
    {imagesDir : Option String} {ext : String} {extr : List (String × M4)}
    {key cam : String} (ref : Option M4)
    (hmem : key ∈ extr.map Prod.fst)
    (hcam : cameraIdOf key = some cam) (hai : ai.lookup cam = some none) :
    exceptOk (buildFrame ai imagesDir ext ref extr key) = false := by
  rcases lookup_mem_isSome hmem with ⟨m, hm⟩
  rw [buildFrame_eq_some hm]
  cases ref with
  | none => rw [alignPose_none, exceptBind_ok, finishFrame_intrNone hcam hai]; rfl
  | some r =>
    rw [alignPose_some]
    by_cases hd : det4 r = 0
    · rw [if_pos hd, exceptBind_error]; rfl
    · rw [if_neg hd, exceptBind_ok, finishFrame_intrNone hcam hai]; rfl

theorem buildFrames_ok_cons {ai : List (String × Option Intrinsics)}
    {imagesDir : Option String} {ext : String} {ref : Option M4}
    {extr : List (String × M4)} {k : String} {ks : List String} {fs : List Frame}
    (h : buildFrames ai imagesDir ext ref extr (k :: ks) = .ok fs) :
    ∃ f fs2, buildFrame ai imagesDir ext ref extr k = .ok f ∧
      buildFrames ai imagesDir ext ref extr ks = .ok fs2 ∧ fs = f :: fs2 := by
  unfold buildFrames at h
  rcases exceptBind_ok_elim h with ⟨f, hb, h2⟩
  rcases exceptBind_ok_elim h2 with ⟨fs2, ht, h3⟩
  injection h3 with h3
  exact ⟨f, fs2, hb, ht, h3.symm⟩

theorem buildFrames_map_path {ai : List (String × Option Intrinsics)}
    {imagesDir : Option String} {ext : String} {ref : Option M4}
    {extr : List (String × M4)} :
    ∀ {ks : List String} {fs : List Frame},
      buildFrames ai imagesDir ext ref extr ks = .ok fs →
      fs.map Frame.filePath = ks.map (fun k => imagePathFor imagesDir k ext)
  | [], fs, h => by
    injection h with h
    subst h; rfl
  | k :: ks, fs, h => by
    rcases buildFrames_ok_cons h with ⟨f, fs2, hb, ht, rfl⟩
    simp only [List.map_cons, buildFrame_ok_path hb, buildFrames_map_path ht]

theorem buildFrames_map_tm_some {ai : List (String × Option Intrinsics)}
    {imagesDir : Option String} {ext : String} {R : M4}
    {extr : List (String × M4)} :
    ∀ {ks : List String} {fs : List Frame},
      buildFrames ai imagesDir ext (some R) extr ks = .ok fs →
      fs.map Frame.transformMatrix
        = ks.map (fun k => matInv R * ((extr.lookup k).getD mId))
  | [], fs, h => by
    injection h with h
    subst h; rfl
  | k :: ks, fs, h => by
    rcases buildFrames_ok_cons h with ⟨f, fs2, hb, ht, rfl⟩
    rcases buildFrame_ok_elim hb with ⟨m, tm, hm, ha, _, htm⟩
    rcases alignPose_ok_elim ha with ⟨hc, _⟩ | ⟨r, hr, _, htm2⟩
    · cases hc
    · injection hr with hr
      subst hr
      simp only [List.map_cons, htm, htm2, hm, buildFrames_map_tm_some ht,
        Option.getD_some]

theorem buildFrames_map_tm_none {ai : List (String × Option Intrinsics)}
    {imagesDir : Option String} {ext : String}
    {extr : List (String × M4)} :
    ∀ {ks : List String} {fs : List Frame},
      buildFrames ai imagesDir ext none extr ks = .ok fs →
      fs.map Frame.transformMatrix = ks.map (fun k => (extr.lookup k).getD mId)
  | [], fs, h => by
    injection h with h
    subst h; rfl
  | k :: ks, fs, h => by
    rcases buildFrames_ok_cons h with ⟨f, fs2, hb, ht, rfl⟩
    rcases buildFrame_ok_elim hb with ⟨m, tm, hm, ha, _, htm⟩
    rcases alignPose_ok_elim ha with ⟨_, htm2⟩ | ⟨r, hr, _, _⟩
    · simp only [List.map_cons, htm, htm2, hm, buildFrames_map_tm_none ht,
        Option.getD_some]
    · cases hr

theorem buildFrames_det_ne_zero {ai : List (String × Option Intrinsics)}
    {imagesDir : Option String} {ext : String} {R : M4}
    {extr : List (String × M4)} {k : String} {ks : List String} {fs : List Frame}
    (h : buildFrames ai imagesDir ext (some R) extr (k :: ks) = .ok fs) :
    det4 R ≠ 0 := by
  rcases buildFrames_ok_cons h with ⟨f, fs2, hb, _, _⟩
  rcases buildFrame_ok_elim hb with ⟨m, tm, _, ha, _, _⟩
  rcases alignPose_ok_elim ha with ⟨hc, _⟩ | ⟨r, hr, hd, _⟩
  · cases hc
  · injection hr with hr
    subst hr
    exact hd

theorem buildFrames_get? {ai : List (String × Option Intrinsics)}
    {imagesDir : Option String} {ext : String} {ref : Option M4}
    {extr : List (String × M4)} :
    ∀ {ks : List String} {fs : List Frame} {i : Nat} {k : String},
      buildFrames ai imagesDir ext ref extr ks = .ok fs →
      ks.get? i = some k →
      ∃ f, fs.get? i = some f ∧ buildFrame ai imagesDir ext ref extr k = .ok f
  | [], _, i, _, _, hk => by cases i <;> cases hk
  | k2 :: ks, fs, i, k, h, hk => by
    rcases buildFrames_ok_cons h with ⟨f, fs2, hb, ht, rfl⟩
    cases i with
    | zero =>
      injection hk with hk
      subst hk
      exact ⟨f, rfl, hb⟩
    | succ n =>
      simp only [List.get?_cons_succ] at hk ⊢
      exact buildFrames_get? ht hk

theorem buildFrames_err_of_mem {ai : List (String × Option Intrinsics)}
    {imagesDir : Option String} {ext : String} {ref : Option M4}
    {extr : List (String × M4)} {k : String} {ks : List String}
    (hmem : k ∈ ks)
    (herr : exceptOk (buildFrame ai imagesDir ext ref extr k) = false) :
    exceptOk (buildFrames ai imagesDir ext ref extr ks) = false := by
  induction ks with
  | nil => simp at hmem
  | cons a t ih =>
    rcases List.mem_cons.mp hmem with rfl | hmem2
    · unfold buildFrames
      cases hba : buildFrame ai imagesDir ext ref extr k with
      | error e => rfl
      | ok f => rw [hba] at herr; simp [exceptOk] at herr
    · unfold buildFrames
      cases hba : buildFrame ai imagesDir ext ref extr a with
      | error e => rfl
      | ok f =>
        have hrec := ih hmem2
        rw [exceptBind_ok]
        cases hbt : buildFrames ai imagesDir ext ref extr t with
        | error e => rfl
        | ok fs => rw [hbt] at hrec; simp [exceptOk] at hrec

theorem convert_ok_elim {extr : List (String × M4)}
    {intrSrc : String → Option (List ℚ)} {imagesDir : Option String}
    {imageExt : String} {w h : Nat} {fs : List Frame}
    (hok : convert_nuscenes_to_transforms extr intrSrc imagesDir imageExt w h true
      = .ok fs) :
    extr ≠ [] ∧ ∃ ai,
      loadAllIntrinsics intrSrc w h (discoveredCams (extr.map Prod.fst)) = .ok ai ∧
      buildFrames ai imagesDir imageExt (referenceMatrix extr) extr
        (sortKeys (extr.map Prod.fst)) = .ok fs := by
  unfold convert_nuscenes_to_transforms at hok
  by_cases he : extr.isEmpty
  · rw [if_pos he] at hok; cases hok
  · rw [if_neg he, if_pos rfl] at hok
    rcases exceptBind_ok_elim hok with ⟨ai, hl, hb⟩
    exact ⟨fun hnil => he (by simp [hnil]), ai, hl, hb⟩

theorem referenceKey_eq_none {extr : List (String × M4)}
    (h : ∀ k ∈ extr.map Prod.fst, pyEndsWith k "_0" = false) :
    referenceKey extr = none := by
  unfold referenceKey firstFrameCandidates
  have hf : (sortKeys (extr.map Prod.fst)).filter (fun k => pyEndsWith k "_0") = [] := by
    rw [List.filter_eq_nil_iff]
    intro a ha
    simp [h a (mem_sortKeys.mp ha)]
  rw [hf]
  rfl

theorem referenceKey_spec {extr : List (String × M4)} {k : String}
    (hk : referenceKey extr = some k) :
    k ∈ extr.map Prod.fst ∧ pyEndsWith k "_0" = true ∧
      ∀ k', k' ∈ extr.map Prod.fst → pyEndsWith k' "_0" = true → strLeR k k' := by
  unfold referenceKey firstFrameCandidates at hk
  cases hfil : (sortKeys (extr.map Prod.fst)).filter (fun k => pyEndsWith k "_0") with
  | nil => rw [hfil] at hk; cases hk
  | cons a t =>
    rw [hfil] at hk
    injection hk with hk
    subst hk
    have hmem : a ∈ (sortKeys (extr.map Prod.fst)).filter (fun k => pyEndsWith k "_0") := by
      rw [hfil]; exact List.mem_cons_self _ _
    rcases List.mem_filter.mp hmem with ⟨hmem2, hp⟩
    have hsorted : List.Sorted strLeR
        ((sortKeys (extr.map Prod.fst)).filter (fun k => pyEndsWith k "_0")) :=
      List.Pairwise.filter _ (sortKeys_sorted (extr.map Prod.fst))
    rw [hfil] at hsorted
    refine ⟨mem_sortKeys.mp hmem2, hp, ?_⟩
    intro k2 hk2 hp2
    have hk2f : a = k2 ∨ k2 ∈ t := by
      have : k2 ∈ (sortKeys (extr.map Prod.fst)).filter (fun k => pyEndsWith k "_0") :=
        List.mem_filter.mpr ⟨mem_sortKeys.mpr hk2, hp2⟩
      rw [hfil] at this
      rcases List.mem_cons.mp this with h1 | h1
      · exact Or.inl h1.symm
      · exact Or.inr h1
    rcases hk2f with heq | hk2t
    · exact heq ▸ strLeR_refl a
    · exact (List.sorted_cons.mp hsorted).1 k2 hk2t

theorem imagePathFor_some (d key ext : String) :
    imagePathFor (some d) key ext
      = if d = "" then "images/" ++ key ++ ext else d ++ "/" ++ key ++ ext := rfl

theorem loadFiles_err {l : List (String × List (List ℚ))} {p : String × List (List ℚ)}
    (hmem : p ∈ l) (hbad : isShape4x4 p.2 = false) :
    ∃ n r, (n, r) ∈ l ∧ isShape4x4 r = false ∧
      loadFiles l = .error (.invalidShape n (shapeOf r)) := by
  induction l with
  | nil => simp at hmem
  | cons q t ih =>
    rcases q with ⟨qn, qr⟩
    by_cases hq : isShape4x4 qr = false
    · refine ⟨qn, qr, List.mem_cons_self _ _, hq, ?_⟩
      unfold loadFiles
      rw [if_neg (by simp [hq])]
    · have hqt : isShape4x4 qr = true := by
        revert hq; cases isShape4x4 qr <;> simp
      rcases List.mem_cons.mp hmem with heq | hmt
      · subst heq
        simp only at hbad
        rw [hqt] at hbad
        cases hbad
      · rcases ih hmt with ⟨n, r, hmem2, hbad2, herr⟩
        refine ⟨n, r, List.mem_cons_of_mem _ hmem2, hbad2, ?_⟩
        unfold loadFiles
        rw [if_pos hqt, herr, exceptBind_error]

theorem toTransformMatrix_blocks (rot : Matrix (Fin 3) (Fin 3) ℚ) (pos : Fin 3 → ℚ) :
    (∀ a b : Fin 3, toTransformMatrix rot pos a.castSucc b.castSucc = rot a b) ∧
    (∀ a : Fin 3, toTransformMatrix rot pos a.castSucc 3 = pos a) ∧
    toTransformMatrix rot pos 3 0 = 0 ∧ toTransformMatrix rot pos 3 1 = 0 ∧
    toTransformMatrix rot pos 3 2 = 0 ∧ toTransformMatrix rot pos 3 3 = 1 := by
  refine ⟨fun a b => ?_, fun a => ?_, ?_, ?_, ?_, ?_⟩
  · simp [toTransformMatrix, Fin.coe_castSucc, a.isLt, b.isLt, Fin.eta]
  · simp [toTransformMatrix, Fin.coe_castSucc, a.isLt, Fin.eta,
      show ((3 : Fin 4) : Nat) = 3 from rfl]
  · simp [toTransformMatrix, show ((3 : Fin 4) : Nat) = 3 from rfl,
      show ((0 : Fin 4) : Nat) = 0 from rfl]
  · simp [toTransformMatrix, show ((3 : Fin 4) : Nat) = 3 from rfl,
      show ((1 : Fin 4) : Nat) = 1 from rfl]
  · simp [toTransformMatrix, show ((3 : Fin 4) : Nat) = 3 from rfl,
      show ((2 : Fin 4) : Nat) = 2 from rfl]
  · simp [toTransformMatrix, show ((3 : Fin 4) : Nat) = 3 from rfl]

/-! ## Claims -/

/-- Claim C1 (confirmed): in multi-camera mode, when a reference
front-camera pose exists, every emitted `transform_matrix`, in sorted key
order, equals the matrix product `inverse(reference) × raw` for its key's
raw extrinsic matrix; moreover the reference determinant is nonzero on any
successful run and the computed inverse is the canonical matrix inverse. -/
theorem claim_C1 {extr : List (String × M4)} {intrSrc : String → Option (List ℚ)}
    {imagesDir : Option String} {imageExt : String} {w h : Nat} {R : M4}
    {fs : List Frame}
    (href : referenceMatrix extr = some R)
    (hok : convert_nuscenes_to_transforms extr intrSrc imagesDir imageExt w h true
      = .ok fs) :
    R.det ≠ 0 ∧ matInv R = R⁻¹ ∧
    fs.map Frame.transformMatrix
      = (sortKeys (extr.map Prod.fst)).map
          (fun k => matInv R * ((extr.lookup k).getD mId)) := by
  rcases convert_ok_elim hok with ⟨hne, ai, -, hbf⟩
  rw [href] at hbf
  have hmap := buildFrames_map_tm_some hbf
  refine ⟨?_, matInv_eq_inv R, hmap⟩
  have hkeys : sortKeys (extr.map Prod.fst) ≠ [] := by
    intro hnil
    have hperm := sortKeys_perm (extr.map Prod.fst)
    rw [hnil] at hperm
    exact hne (List.map_eq_nil_iff.mp (List.perm_nil.mp hperm.symm))
  cases hsk : sortKeys (extr.map Prod.fst) with
  | nil => exact absurd hsk hkeys
  | cons k ks =>
    rw [hsk] at hbf
    have hd := buildFrames_det_ne_zero hbf
    rw [det4_eq_det] at hd
    exact hd

/-- Witness for C1 on a one-file front-camera input. -/
theorem claim_C1_witness :
    referenceMatrix exFront = some mId ∧
    convert_nuscenes_to_transforms exFront intrSrc0 none ".jpg" 1600 900 true
      = .ok [{ filePath := "images/000_0.jpg", transformMatrix := matInv mId * mId,
               intr := some intr500 }] ∧
    (mId.det ≠ 0 ∧ matInv mId = mId⁻¹ ∧
      ([{ filePath := "images/000_0.jpg", transformMatrix := matInv mId * mId,
          intr := some intr500 }] : List Frame).map Frame.transformMatrix
        = (sortKeys (exFront.map Prod.fst)).map
            (fun k => matInv mId * ((exFront.lookup k).getD mId))) :=
  have h1 : referenceMatrix exFront = some mId := by with_unfolding_all rfl
  have h2 : convert_nuscenes_to_transforms exFront intrSrc0 none ".jpg" 1600 900 true
      = .ok [{ filePath := "images/000_0.jpg", transformMatrix := matInv mId * mId,
               intr := some intr500 }] := by with_unfolding_all rfl
  ⟨h1, h2, claim_C1 h1 h2⟩

/-- Claim C2 (corrected): the code selects the reference by the suffix test
`endswith('_0')`, not by the camera component.  The amended statement: when
a reference key is chosen, it belongs to the key set, ends in `"_0"`, and
is lexicographically least among all keys ending in `"_0"`; the reference
pose is the matrix stored under it. -/
theorem claim_C2 {extr : List (String × M4)} {k : String}
    (hk : referenceKey extr = some k) :
    k ∈ extr.map Prod.fst ∧ pyEndsWith k "_0" = true ∧
      (∀ k', k' ∈ extr.map Prod.fst → pyEndsWith k' "_0" = true → strLeR k k') ∧
      referenceMatrix extr = extr.lookup k := by
  rcases referenceKey_spec hk with ⟨h1, h2, h3⟩
  refine ⟨h1, h2, h3, ?_⟩
  unfold referenceMatrix
  rw [hk]
  rfl

/-- Counterexample to C2 as stated: with keys `000_1_0` (three components,
camera component undefined) and `001_0` (camera component `"0"`), the code
picks `000_1_0` as reference, while the smallest key with camera component
`"0"` is `001_0`; the two reference matrices differ. -/
theorem claim_C2_counterexample :
    referenceKey exMixed = some "000_1_0" ∧
    hasCameraComponent0 "000_1_0" = false ∧
    specReferenceKey exMixed = some "001_0" ∧
    hasCameraComponent0 "001_0" = true ∧
    referenceMatrix exMixed ≠ specReferenceMatrix exMixed := by
  with_unfolding_all decide

/-- Witness for C2 on a one-file front-camera input. -/
theorem claim_C2_witness :
    referenceKey exFront = some "000_0" ∧
    ("000_0" ∈ exFront.map Prod.fst ∧ pyEndsWith "000_0" "_0" = true ∧
      (∀ k', k' ∈ exFront.map Prod.fst → pyEndsWith k' "_0" = true →
        strLeR "000_0" k') ∧
      referenceMatrix exFront = exFront.lookup "000_0") :=
  have h1 : referenceKey exFront = some "000_0" := by with_unfolding_all rfl
  ⟨h1, claim_C2 h1⟩

/-- Claim C3 (confirmed): when the reference key itself is processed on a
successful multi-camera run with an invertible reference, its aligned
transform is the 4×4 identity. -/
theorem claim_C3 {extr : List (String × M4)} {intrSrc : String → Option (List ℚ)}
    {imagesDir : Option String} {imageExt : String} {w h : Nat} {k : String}
    {R : M4} {fs : List Frame}
    (hk : referenceKey extr = some k)
    (hR : referenceMatrix extr = some R)
    (hinv : R.det ≠ 0)
    (hok : convert_nuscenes_to_transforms extr intrSrc imagesDir imageExt w h true
      = .ok fs) :
    (fs.get? ((sortKeys (extr.map Prod.fst)).indexOf k)).map Frame.transformMatrix
      = some (1 : M4) := by
  rcases convert_ok_elim hok with ⟨-, ai, -, hbf⟩
  have hkmem : k ∈ sortKeys (extr.map Prod.fst) :=
    mem_sortKeys.mpr (referenceKey_spec hk).1
  have hget : (sortKeys (extr.map Prod.fst)).get?
      ((sortKeys (extr.map Prod.fst)).indexOf k) = some k :=
    List.indexOf_get? hkmem
  rcases buildFrames_get? hbf hget with ⟨f, hf, hbfr⟩
  rcases buildFrame_ok_elim hbfr with ⟨m, tm, hm, ha, -, htm⟩
  have hlkR : extr.lookup k = some R := by
    unfold referenceMatrix at hR
    rw [hk] at hR
    exact hR
  rw [hm] at hlkR
  injection hlkR with hmR
  subst hmR
  rw [hR] at ha
  rcases alignPose_ok_elim ha with ⟨hc, -⟩ | ⟨r, hr, -, htm2⟩
  · cases hc
  · injection hr with hr
    subst hr
    rw [hf]
    simp only [Option.map_some']
    rw [htm, htm2, matInv_mul_self m hinv]

/-- Witness for C3 on a one-file front-camera input. -/
theorem claim_C3_witness :
    referenceKey exFront = some "000_0" ∧
    referenceMatrix exFront = some mId ∧
    mId.det ≠ 0 ∧
    convert_nuscenes_to_transforms exFront intrSrc0 none ".jpg" 1600 900 true
      = .ok [{ filePath := "images/000_0.jpg", transformMatrix := matInv mId * mId,
               intr := some intr500 }] ∧
    (([{ filePath := "images/000_0.jpg", transformMatrix := matInv mId * mId,
         intr := some intr500 }] : List Frame).get?
        ((sortKeys (exFront.map Prod.fst)).indexOf "000_0")).map Frame.transformMatrix
      = some (1 : M4) :=
  have hk : referenceKey exFront = some "000_0" := by with_unfolding_all rfl
  have hR : referenceMatrix exFront = some mId := by with_unfolding_all rfl
  have hd : mId.det ≠ 0 := by rw [← det4_eq_det]; with_unfolding_all decide
  have hok : convert_nuscenes_to_transforms exFront intrSrc0 none ".jpg" 1600 900 true
      = .ok [{ filePath := "images/000_0.jpg", transformMatrix := matInv mId * mId,
               intr := some intr500 }] := by with_unfolding_all rfl
  ⟨hk, hR, hd, hok, claim_C3 hk hR hd hok⟩

/-- Claim C4 (corrected): the skip condition is the suffix test, not the
camera component.  Amended statement: when no key ends in `"_0"`, no
reference is selected (the logged warning accompanies exactly this
outcome), and on a successful run every emitted transform equals its raw
input matrix unchanged. -/
theorem claim_C4 {extr : List (String × M4)} {intrSrc : String → Option (List ℚ)}
    {imagesDir : Option String} {imageExt : String} {w h : Nat} {fs : List Frame}
    (hnone : ∀ k ∈ extr.map Prod.fst, pyEndsWith k "_0" = false)
    (hok : convert_nuscenes_to_transforms extr intrSrc imagesDir imageExt w h true
      = .ok fs) :
    referenceKey extr = none ∧
    fs.map Frame.transformMatrix
      = (sortKeys (extr.map Prod.fst)).map (fun k => (extr.lookup k).getD mId) := by
  have hrk := referenceKey_eq_none hnone
  have hrm : referenceMatrix extr = none := by
    unfold referenceMatrix
    rw [hrk]
    rfl
  rcases convert_ok_elim hok with ⟨-, ai, -, hbf⟩
  rw [hrm] at hbf
  exact ⟨hrk, buildFrames_map_tm_none hbf⟩

/-- Counterexample to C4 as stated: the key `000_1_0` has no camera
component `"0"` (it has three parts), yet alignment is NOT skipped — the
key is selected as reference by the suffix test — and the run is fatal
(`AssertionError` on the malformed key), rather than passing raw poses
through. -/
theorem claim_C4_counterexample :
    hasCameraComponent0 "000_1_0" = false ∧
    referenceKey exThreePart = some "000_1_0" ∧
    convert_nuscenes_to_transforms exThreePart intrSrcNone none ".jpg" 1600 900 true
      = .error (.badKeyFormat "000_1_0") ∧
    exceptOk (convert_nuscenes_to_transforms exThreePart intrSrcNone none ".jpg"
      1600 900 true) = false :=
  ⟨by with_unfolding_all rfl, by with_unfolding_all rfl,
   by with_unfolding_all rfl, by with_unfolding_all rfl⟩

/-- Witness for C4 on a one-file camera-1 input. -/
theorem claim_C4_witness :
    (∀ k ∈ exSide.map Prod.fst, pyEndsWith k "_0" = false) ∧
    convert_nuscenes_to_transforms exSide intrSrc1 none ".jpg" 1600 900 true
      = .ok [{ filePath := "images/000_1.jpg", transformMatrix := mId,
               intr := some intr500 }] ∧
    (referenceKey exSide = none ∧
      ([{ filePath := "images/000_1.jpg", transformMatrix := mId,
          intr := some intr500 }] : List Frame).map Frame.transformMatrix
        = (sortKeys (exSide.map Prod.fst)).map (fun k => (exSide.lookup k).getD mId)) :=
  have h1 : ∀ k ∈ exSide.map Prod.fst, pyEndsWith k "_0" = false := by
    with_unfolding_all decide
  have h2 : convert_nuscenes_to_transforms exSide intrSrc1 none ".jpg" 1600 900 true
      = .ok [{ filePath := "images/000_1.jpg", transformMatrix := mId,
               intr := some intr500 }] := by with_unfolding_all rfl
  ⟨h1, h2, claim_C4 h1 h2⟩

/-- Claim C5 (confirmed): a `.txt` file in the extrinsics directory whose
parsed shape is not 4×4 makes the whole run abort with a `ValueError`
naming an offending file and the shape found; the result is an error, so
no output document (not even a partial one) is written. -/
theorem claim_C5 {files : List (String × List (List ℚ))}
    {intrSrc : String → Option (List ℚ)} {imagesDir : Option String}
    {imageExt : String} {w h : Nat} {multi : Bool}
    {name : String} {rows : List (List ℚ)}
    (hmem : (name, rows) ∈ files)
    (htxt : pyEndsWith name ".txt" = true)
    (hbad : isShape4x4 rows = false) :
    ∃ n r, (n, r) ∈ files ∧ pyEndsWith n ".txt" = true ∧ isShape4x4 r = false ∧
      runConversion files intrSrc imagesDir imageExt w h multi
        = .error (.invalidShape n (shapeOf r)) ∧
      exceptOk (runConversion files intrSrc imagesDir imageExt w h multi) = false := by
  have hmf : (name, rows) ∈ files.filter (fun f => pyEndsWith f.1 ".txt") :=
    List.mem_filter.mpr ⟨hmem, htxt⟩
  rcases loadFiles_err hmf hbad with ⟨n, r, hmem2, hbad2, herr⟩
  rcases List.mem_filter.mp hmem2 with ⟨hmem3, htxt2⟩
  have hrun : runConversion files intrSrc imagesDir imageExt w h multi
      = .error (.invalidShape n (shapeOf r)) := by
    unfold runConversion load_extrinsics_from_directory
    rw [herr, exceptBind_error]
  exact ⟨n, r, hmem3, htxt2, hbad2, hrun, by rw [hrun]; rfl⟩

/-- Witness for C5 on a directory containing one 3×3 file. -/
theorem claim_C5_witness :
    ("bad.txt", [[(1:ℚ), 0, 0], [0, 1, 0], [0, 0, 1]]) ∈ filesBad ∧
    pyEndsWith "bad.txt" ".txt" = true ∧
    isShape4x4 [[(1:ℚ), 0, 0], [0, 1, 0], [0, 0, 1]] = false ∧
    (∃ n r, (n, r) ∈ filesBad ∧ pyEndsWith n ".txt" = true ∧ isShape4x4 r = false ∧
      runConversion filesBad intrSrcNone none ".jpg" 1600 900 true
        = .error (.invalidShape n (shapeOf r)) ∧
      exceptOk (runConversion filesBad intrSrcNone none ".jpg" 1600 900 true) = false) :=
  have h1 : ("bad.txt", [[(1:ℚ), 0, 0], [0, 1, 0], [0, 0, 1]]) ∈ filesBad := by
    with_unfolding_all decide
  have h2 : pyEndsWith "bad.txt" ".txt" = true := by with_unfolding_all decide
  have h3 : isShape4x4 [[(1:ℚ), 0, 0], [0, 1, 0], [0, 0, 1]] = false := by
    with_unfolding_all decide
  ⟨h1, h2, h3, claim_C5 h1 h2 h3⟩

/-- Claim C6 (confirmed): in multi-camera mode, a discovered camera id
whose intrinsics file is absent makes `load_intrinsics` report the error
and yield `None`, and the conversion is fatal: the run never produces an
output document (the `None` is subscripted when the first frame of that
camera is assembled, before `json.dump` is reached). -/
theorem claim_C6 {extr : List (String × M4)} {intrSrc : String → Option (List ℚ)}
    {imagesDir : Option String} {imageExt : String} {w h : Nat} {cam : String}
    (hcam : cam ∈ discoveredCams (extr.map Prod.fst))
    (hmiss : intrSrc cam = none) :
    load_intrinsics intrSrc cam w h = .ok none ∧
    exceptOk (convert_nuscenes_to_transforms extr intrSrc imagesDir imageExt w h true)
      = false := by
  have hli : load_intrinsics intrSrc cam w h = .ok none := by
    unfold load_intrinsics
    rw [hmiss]
  refine ⟨hli, ?_⟩
  unfold convert_nuscenes_to_transforms
  by_cases he : extr.isEmpty
  · rw [if_pos he]; rfl
  · rw [if_neg he, if_pos rfl]
    cases hl : loadAllIntrinsics intrSrc w h (discoveredCams (extr.map Prod.fst)) with
    | error e => rw [exceptBind_error]; rfl
    | ok ai =>
      rw [exceptBind_ok]
      obtain ⟨k, hkmem, hkcam⟩ : ∃ k, k ∈ extr.map Prod.fst ∧ cameraIdOf k = some cam := by
        have hdd : cam ∈ ((extr.map Prod.fst).filterMap cameraIdOf).dedup :=
          mem_sortKeys.mp hcam
        rcases List.mem_filterMap.mp (List.mem_dedup.mp hdd) with ⟨k, hk1, hk2⟩
        exact ⟨k, hk1, hk2⟩
      rcases loadAllIntrinsics_lookup hl hcam with ⟨v, hv, hlk⟩
      rw [hli] at hv
      injection hv with hv
      subst hv
      exact buildFrames_err_of_mem (mem_sortKeys.mpr hkmem)
        (buildFrame_intrNone _ hkmem hkcam hlk)

/-- Witness for C6: camera `"1"` is discovered but has no intrinsics file. -/
theorem claim_C6_witness :
    "1" ∈ discoveredCams (exSide.map Prod.fst) ∧
    intrSrcNone "1" = none ∧
    (load_intrinsics intrSrcNone "1" 1600 900 = .ok none ∧
      exceptOk (convert_nuscenes_to_transforms exSide intrSrcNone none ".jpg"
        1600 900 true) = false) :=
  have h1 : "1" ∈ discoveredCams (exSide.map Prod.fst) := by with_unfolding_all decide
  have h2 : intrSrcNone "1" = none := rfl
  ⟨h1, h2, claim_C6 h1 h2⟩

/-- Claim C7 (corrected): the claim says single-camera mode ALWAYS fails
fast with the not-implemented signal, but the empty-extrinsics check runs
first and returns a different failure.  Amended statement: whenever the
loaded extrinsics are nonempty, single-camera mode fails with
`NotImplementedError`; the result does not depend on the intrinsics source
(none are loaded) and is an error, so no output document is produced. -/
theorem claim_C7 {extr : List (String × M4)} (intrSrc : String → Option (List ℚ))
    (imagesDir : Option String) (imageExt : String) (w h : Nat)
    (hne : extr ≠ []) :
    convert_nuscenes_to_transforms extr intrSrc imagesDir imageExt w h false
      = .error .notImplemented := by
  cases extr with
  | nil => exact absurd rfl hne
  | cons a t => rfl

/-- Counterexample to C7 as stated: on an empty extrinsics collection the
single-camera run fails with the empty-extrinsics outcome, not with the
not-implemented signal. -/
theorem claim_C7_counterexample :
    convert_nuscenes_to_transforms [] intrSrcNone none ".jpg" 1600 900 false
      = .error .noExtrinsics ∧
    ConvError.noExtrinsics ≠ ConvError.notImplemented :=
  ⟨rfl, by decide⟩

/-- Witness for C7 on a nonempty extrinsics collection. -/
theorem claim_C7_witness :
    exFront ≠ [] ∧
    convert_nuscenes_to_transforms exFront intrSrcNone none ".jpg" 1600 900 false
      = .error .notImplemented :=
  have h1 : exFront ≠ [] := by with_unfolding_all decide
  ⟨h1, claim_C7 intrSrcNone none ".jpg" 1600 900 h1⟩

/-- Claim C8 (confirmed): a successful multi-camera run emits exactly one
frame per extrinsic key (the `file_path` sequence is the image path of
each sorted key, and the sorted keys are a permutation of the key set,
which is duplicate-free for a dictionary), in ascending lexicographic key
order; the output is a pure function of the input, hence deterministic
across repeated runs. -/
theorem claim_C8 {extr : List (String × M4)} {intrSrc : String → Option (List ℚ)}
    {imagesDir : Option String} {imageExt : String} {w h : Nat} {fs : List Frame}
    (hnd : (extr.map Prod.fst).Nodup)
    (hok : convert_nuscenes_to_transforms extr intrSrc imagesDir imageExt w h true
      = .ok fs) :
    fs.map Frame.filePath
      = (sortKeys (extr.map Prod.fst)).map (fun k => imagePathFor imagesDir k imageExt) ∧
    List.Perm (sortKeys (extr.map Prod.fst)) (extr.map Prod.fst) ∧
    List.Sorted strLeR (sortKeys (extr.map Prod.fst)) ∧
    (sortKeys (extr.map Prod.fst)).Nodup ∧
    fs.length = extr.length := by
  rcases convert_ok_elim hok with ⟨-, ai, -, hbf⟩
  have hp := buildFrames_map_path hbf
  refine ⟨hp, sortKeys_perm _, sortKeys_sorted _, (sortKeys_perm _).nodup_iff.mpr hnd, ?_⟩
  have h2 : fs.length = (sortKeys (extr.map Prod.fst)).length := by
    have h3 := congrArg List.length hp
    simpa using h3
  rw [h2, (sortKeys_perm _).length_eq, List.length_map]

/-- Witness for C8 on a one-file camera-1 input. -/
theorem claim_C8_witness :
    (exSide.map Prod.fst).Nodup ∧
    convert_nuscenes_to_transforms exSide intrSrc1 none ".jpg" 1600 900 true
      = .ok [{ filePath := "images/000_1.jpg", transformMatrix := mId,
               intr := some intr500 }] ∧
    (([{ filePath := "images/000_1.jpg", transformMatrix := mId,
         intr := some intr500 }] : List Frame).map Frame.filePath
        = (sortKeys (exSide.map Prod.fst)).map (fun k => imagePathFor none k ".jpg") ∧
      List.Perm (sortKeys (exSide.map Prod.fst)) (exSide.map Prod.fst) ∧
      List.Sorted strLeR (sortKeys (exSide.map Prod.fst)) ∧
      (sortKeys (exSide.map Prod.fst)).Nodup ∧
      ([{ filePath := "images/000_1.jpg", transformMatrix := mId,
          intr := some intr500 }] : List Frame).length = exSide.length) :=
  have h1 : (exSide.map Prod.fst).Nodup := by with_unfolding_all decide
  have h2 : convert_nuscenes_to_transforms exSide intrSrc1 none ".jpg" 1600 900 true
      = .ok [{ filePath := "images/000_1.jpg", transformMatrix := mId,
               intr := some intr500 }] := by with_unfolding_all rfl
  ⟨h1, h2, claim_C8 h1 h2⟩

/-- Claim C9 (corrected): the claim quantifies over every value of
`images_dir`, but the empty string is falsy in Python and falls back to
the `"images"` directory.  Amended statement: for every NONEMPTY
`images_dir`, each emitted `file_path` equals
`{images_dir}/{key}{image_ext}` exactly. -/
theorem claim_C9 {extr : List (String × M4)} {intrSrc : String → Option (List ℚ)}
    {d : String} {imageExt : String} {w h : Nat} {fs : List Frame}
    (hd : d ≠ "")
    (hok : convert_nuscenes_to_transforms extr intrSrc (some d) imageExt w h true
      = .ok fs) :
    fs.map Frame.filePath
      = (sortKeys (extr.map Prod.fst)).map (fun k => d ++ "/" ++ k ++ imageExt) := by
  rcases convert_ok_elim hok with ⟨-, ai, -, hbf⟩
  rw [buildFrames_map_path hbf]
  apply List.map_congr_left
  intro k _
  rw [imagePathFor_some, if_neg hd]

/-- Counterexample to C9 as stated: with `images_dir = ""` the emitted
path falls back to the `"images"` prefix instead of `{images_dir}/{key}{ext}`. -/
theorem claim_C9_counterexample :
    convert_nuscenes_to_transforms exSide intrSrc1 (some "") ".jpg" 1600 900 true
      = .ok [{ filePath := "images/000_1.jpg", transformMatrix := mId,
               intr := some intr500 }] ∧
    "images/000_1.jpg" ≠ "" ++ "/" ++ "000_1" ++ ".jpg" :=
  ⟨by with_unfolding_all rfl, by decide⟩

/-- Witness for C9 with a nonempty images directory. -/
theorem claim_C9_witness :
    ("imgs" : String) ≠ "" ∧
    convert_nuscenes_to_transforms exSide intrSrc1 (some "imgs") ".jpg" 1600 900 true
      = .ok [{ filePath := "imgs/000_1.jpg", transformMatrix := mId,
               intr := some intr500 }] ∧
    ([{ filePath := "imgs/000_1.jpg", transformMatrix := mId,
        intr := some intr500 }] : List Frame).map Frame.filePath
      = (sortKeys (exSide.map Prod.fst)).map (fun k => "imgs" ++ "/" ++ k ++ ".jpg") :=
  have h1 : ("imgs" : String) ≠ "" := by decide
  have h2 : convert_nuscenes_to_transforms exSide intrSrc1 (some "imgs") ".jpg"
      1600 900 true
      = .ok [{ filePath := "imgs/000_1.jpg", transformMatrix := mId,
               intr := some intr500 }] := by with_unfolding_all rfl
  ⟨h1, h2, claim_C9 h1 h2⟩

/-- Claim C10 (confirmed): every frame of the flat converter carries the
4×4 matrix whose top-left 3×3 block is the record's rotation, whose
top-right column is the record's position, and whose bottom row is
`0 0 0 1`. -/
theorem claim_C10 {cams : List CameraRecord} {doc : TransformsDoc}
    (hok : convert_cameras_to_transforms cams = .ok doc) :
    doc.frames.map CamFrame.transformMatrix
      = cams.map (fun c => toTransformMatrix c.rotation c.position) ∧
    ∀ c ∈ cams,
      (∀ a b : Fin 3,
        toTransformMatrix c.rotation c.position a.castSucc b.castSucc = c.rotation a b) ∧
      (∀ a : Fin 3,
        toTransformMatrix c.rotation c.position a.castSucc 3 = c.position a) ∧
      toTransformMatrix c.rotation c.position 3 0 = 0 ∧
      toTransformMatrix c.rotation c.position 3 1 = 0 ∧
      toTransformMatrix c.rotation c.position 3 2 = 0 ∧
      toTransformMatrix c.rotation c.position 3 3 = 1 := by
  refine ⟨?_, fun c _ => toTransformMatrix_blocks c.rotation c.position⟩
  cases cams with
  | nil => cases hok
  | cons first rest =>
    injection hok with hok
    subst hok
    simp [List.map_map]

/-- Witness for C10 on a one-record cameras.json input. -/
theorem claim_C10_witness :
    convert_cameras_to_transforms camsEx
      = .ok (⟨500, 500, 1600, 900, [⟨"images/img0.jpg",
          toTransformMatrix (fun i j => if i = j then 1 else 0) (fun _ => 7)⟩]⟩
            : TransformsDoc) ∧
    ((⟨500, 500, 1600, 900, [⟨"images/img0.jpg",
        toTransformMatrix (fun i j => if i = j then 1 else 0) (fun _ => 7)⟩]⟩
          : TransformsDoc).frames.map CamFrame.transformMatrix
        = camsEx.map (fun c => toTransformMatrix c.rotation c.position) ∧
      ∀ c ∈ camsEx,
        (∀ a b : Fin 3,
          toTransformMatrix c.rotation c.position a.castSucc b.castSucc
            = c.rotation a b) ∧
        (∀ a : Fin 3,
          toTransformMatrix c.rotation c.position a.castSucc 3 = c.position a) ∧
        toTransformMatrix c.rotation c.position 3 0 = 0 ∧
        toTransformMatrix c.rotation c.position 3 1 = 0 ∧
        toTransformMatrix c.rotation c.position 3 2 = 0 ∧
        toTransformMatrix c.rotation c.position 3 3 = 1) :=
  have h1 : convert_cameras_to_transforms camsEx
      = .ok (⟨500, 500, 1600, 900, [⟨"images/img0.jpg",
          toTransformMatrix (fun i j => if i = j then 1 else 0) (fun _ => 7)⟩]⟩
            : TransformsDoc) := by
    with_unfolding_all rfl
  ⟨h1, claim_C10 h1⟩
